import Mathlib

/-
Verification of the QCircuit tree-tensor-product-state implementation
(include/qcircuit.hpp) against its natural-language specification.

The tensor algebra kernel (itensor) is an external collaborator: the circuit
code only ever calls it through a fixed interface (tensor construction from an
index list, element set, contraction product, svd with templates, Frobenius
norm, scalar division, commonIndex, priming, dag).  We therefore embed the
circuit operations generically over a record of those operations, `TensorLib`,
and instantiate it with a free syntactic tensor algebra `FreeT` for concrete
evaluation.  Machine indices of the itensor library are abstract identities with
a dimension and a prime level; they are embedded as a concrete structure.
-/

namespace qcircuit

/-- Index of the tensor library: an abstract identity with a dimension, a tag
and a prime level.  Priming increments the level, producing a distinct index
of the same dimension. -/
structure Index where
  id : ℕ
  dim : ℕ
  tag : ℕ
  level : ℕ
deriving DecidableEq, Repr

/-- Priming an index (itensor `prime(Index)`): same identity, next level. -/
def primeI (x : Index) : Index :=
  { x with level := x.level + 1 }

/-- Default index used as the out-of-range fallback of total list indexing.
All theorems below carry in-range hypotheses, so this value is never reached
on the verified paths. -/
def dIdx : Index := ⟨0, 1, 0, 0⟩

/-- Modelled from the spec: one entry of `neighborsOf` of the circuit-topology
collaborator (its header is not among the sources): the opposite endpoint
`site` of an incident edge and that edge's unique id `link`. -/
structure Neighbor where
  site : ℕ
  link : ℕ
deriving DecidableEq, Repr

/-- Modelled from the spec: the CircuitTopology collaborator, exposing
`numberOfBits()`, `numberOfLinks()` and `neighborsOf(site)`, the latter an
ordered, stable list of `{site, link}` pairs.  The underlying graph data is
stored as one ordered neighbor list per site. -/
structure CircuitTopology where
  numberOfLinks : ℕ
  neighbors : List (List Neighbor)
deriving DecidableEq, Repr

/-- Modelled from the spec: `numberOfBits()` returns the number of sites. -/
def CircuitTopology.numberOfBits (t : CircuitTopology) : ℕ :=
  t.neighbors.length

/-- Modelled from the spec: `neighborsOf(i)` returns the ordered neighbor
list of site `i`. -/
def CircuitTopology.neighborsOf (t : CircuitTopology) (i : ℕ) : List Neighbor :=
  t.neighbors.getD i []

/-- Interface of the external tensor library, exactly the operations
`qcircuit.hpp` calls.  `T` is the tensor type, `Sp` the spectrum type
returned by `svd`, `Ar` the truncation-argument type.  `svd t u s v args`
receives the three in-out factor templates the way the C++ call
`svd(T, U, S, V, args)` does and returns the filled factors together with
the spectrum. -/
structure TensorLib (T Sp Ar : Type) where
  emptyT : T
  mkT : List Index → T
  set : T → List (Index × ℕ) → ℂ → T
  prod : T → T → T
  svd : T → T → T → T → Ar → T × T × T × Sp
  norm : T → ℝ
  divr : T → ℝ → T
  commonIndex : T → T → Index
  prime2 : T → Index → Index → T
  primeT : T → T
  dag : T → T
  inds : T → List Index
  cplx : T → ℂ

/-- The circuit state of class QCircuit: link indices `a`, site indices `s`,
site tensors `M`, the contracted two-site tensor `Psi` and the cursor pair. -/
structure QCircuit (T : Type) where
  topology : CircuitTopology
  a : List Index
  s : List Index
  M : List T
  Psi : T
  cursor : ℕ × ℕ
deriving DecidableEq

/-- Number of qubits, `QCircuit::size()`. -/
def QCircuit.size {T : Type} (st : QCircuit T) : ℕ :=
  st.topology.numberOfBits

variable {T Sp Ar : Type}

/-- The switch statement shared by `decomposePsi` and both branches of
`shift_to`: build the SVD factor template carrying the site index `si` and
the link indices of the (already filtered) neighbor list `nl`; the default
branch is `assert(false)`, embedded as `none`. -/
def buildTemplate (L : TensorLib T Sp Ar) (si : Index) (nl : List Neighbor)
    (a : List Index) : Option T :=
  match nl with
  | [] => some (L.mkT [si])
  | [n0] => some (L.mkT [si, a.getD n0.link dIdx])
  | [n0, n1] => some (L.mkT [si, a.getD n0.link dIdx, a.getD n1.link dIdx])
  | _ => none

/-- `QCircuit::decomposePsi(args)`.  The C++ method returns void; the
spectrum of the internal SVD is bound to a local and discarded.  Failure to
find the cursor partner in the neighbor list (an end-iterator dereference in
the source) and the template default branch are embedded as `none`. -/
def decomposePsi (L : TensorLib T Sp Ar) (st : QCircuit T) (args : Ar) :
    Option (QCircuit T) :=
  let list := st.topology.neighborsOf st.cursor.1
  match list.find? (fun nb => nb.site == st.cursor.2) with
  | none => none
  | some nbSec =>
    let newlist := list.filter (fun nb => !(nb.site == st.cursor.2))
    match buildTemplate L (st.s.getD st.cursor.1 dIdx) newlist st.a with
    | none => none
    | some Utm =>
      let r := L.svd st.Psi Utm L.emptyT L.emptyT args
      let Sn := L.divr r.2.1 (L.norm r.2.1)
      some { st with
        a := st.a.set nbSec.link (L.commonIndex r.1 r.2.1),
        M := (st.M.set st.cursor.1 r.1).set st.cursor.2 (L.prod Sn r.2.2.1) }

/-- The C++ loop that scans a neighbor list for `target` and keeps the link
of the last match (initialised to 0). -/
def lastLink (l : List Neighbor) (target : ℕ) : ℕ :=
  l.foldl (fun acc nb => if nb.site == target then nb.link else acc) 0

/-- `QCircuit::shift_to(ind, args)`.  The two leading asserts and the
`assert(false)` of the direction-not-found branch are embedded as `none`.
The flag search runs both neighbor loops, the second overriding the first,
exactly as in the source. -/
def shift_to (L : TensorLib T Sp Ar) (st : QCircuit T) (ind : ℕ) (args : Ar) :
    Option (QCircuit T × Sp) :=
  if ind = st.cursor.1 then none
  else if ind = st.cursor.2 then none
  else
    let flag : ℕ :=
      if (st.topology.neighborsOf st.cursor.2).any (fun nb => nb.site == ind) then 2
      else if (st.topology.neighborsOf st.cursor.1).any (fun nb => nb.site == ind) then 1
      else 0
    if flag = 1 then
      let list := st.topology.neighborsOf st.cursor.2
      let link_ind := lastLink list st.cursor.1
      let newlist := list.filter (fun nb => !(nb.site == st.cursor.1))
      match buildTemplate L (st.s.getD st.cursor.2 dIdx) newlist st.a with
      | none => none
      | some Vtm =>
        let r := L.svd st.Psi L.emptyT L.emptyT Vtm args
        let Sn := L.divr r.2.1 (L.norm r.2.1)
        let Mnew := st.M.set st.cursor.2 r.2.2.1
        some ({ st with
                  a := st.a.set link_ind (L.commonIndex r.2.1 r.2.2.1),
                  M := Mnew,
                  Psi := L.prod (L.prod (Mnew.getD ind L.emptyT) r.1) Sn,
                  cursor := (ind, st.cursor.1) }, r.2.2.2)
    else if flag = 2 then
      let list := st.topology.neighborsOf st.cursor.1
      let link_ind := lastLink list st.cursor.2
      let newlist := list.filter (fun nb => !(nb.site == st.cursor.2))
      match buildTemplate L (st.s.getD st.cursor.1 dIdx) newlist st.a with
      | none => none
      | some Utm =>
        let r := L.svd st.Psi Utm L.emptyT L.emptyT args
        let Sn := L.divr r.2.1 (L.norm r.2.1)
        let Mnew := st.M.set st.cursor.1 r.1
        some ({ st with
                  a := st.a.set link_ind (L.commonIndex r.1 r.2.1),
                  M := Mnew,
                  Psi := L.prod (L.prod Sn r.2.2.1) (Mnew.getD ind L.emptyT),
                  cursor := (st.cursor.2, ind) }, r.2.2.2)
    else none

/-- `QCircuit::apply(op)`: guarded by the two asserts of the source (rank 4,
every index of `op` among the two cursor site indices and their primes) and
otherwise replacing `Psi` by `op * prime(Psi, s[first], s[second])`. -/
def apply (L : TensorLib T Sp Ar) (st : QCircuit T) (op : T) :
    Option (QCircuit T) :=
  let sf := st.s.getD st.cursor.1 dIdx
  let ss := st.s.getD st.cursor.2 dIdx
  if (L.inds op).length = 4 ∧
      (∀ el ∈ L.inds op, el = sf ∨ el = ss ∨ el = primeI sf ∨ el = primeI ss)
  then some { st with Psi := L.prod op (L.prime2 st.Psi sf ss) }
  else none

/-- `QCircuit::normalize()`. -/
def normalize (L : TensorLib T Sp Ar) (st : QCircuit T) : QCircuit T :=
  { st with Psi := L.divr st.Psi (L.norm st.Psi) }

/-- `QCircuit::primeAll()`. -/
def primeAll (L : TensorLib T Sp Ar) (st : QCircuit T) : QCircuit T :=
  { st with
    s := st.s.map primeI,
    a := st.a.map primeI,
    M := st.M.map L.primeT,
    Psi := L.primeT st.Psi }

/-- Link index created by the constructor for edge `i`: dimension 1,
tag "LinkInd" (encoded 0), fresh identity. -/
def linkIndex (i : ℕ) : Index := ⟨i, 1, 0, 0⟩

/-- Site index created by the constructor for site `i`: dimension 2,
tag "SiteInd" (encoded 1), fresh identity. -/
def siteIndex (i : ℕ) : Index := ⟨i, 2, 1, 0⟩

/-- The body of the constructor's site-tensor loop for one site `i`:
allocate the rank-(1+deg) tensor over the site index and the incident link
indices and set the two product-state amplitudes.  Vector accesses are by
`get?`; any out-of-range access, and the `assert(false)` default of the
degree switch, yield `none`. -/
def buildSiteTensor (L : TensorLib T Sp Ar) (topo : CircuitTopology)
    (a s : List Index) (init : List (ℂ × ℂ)) (i : ℕ) : Option T := do
  let si ← s.get? i
  match topo.neighborsOf i with
  | [n0] => do
    let a0 ← a.get? n0.link
    let q ← init.get? i
    pure (L.set (L.set (L.mkT [si, a0]) [(si, 1), (a0, 1)] q.1)
          [(si, 2), (a0, 1)] q.2)
  | [n0, n1] => do
    let a0 ← a.get? n0.link
    let a1 ← a.get? n1.link
    let q ← init.get? i
    pure (L.set (L.set (L.mkT [si, a0, a1]) [(si, 1), (a0, 1), (a1, 1)] q.1)
          [(si, 2), (a0, 1), (a1, 1)] q.2)
  | [n0, n1, n2] => do
    let a0 ← a.get? n0.link
    let a1 ← a.get? n1.link
    let a2 ← a.get? n2.link
    let q ← init.get? i
    pure (L.set (L.set (L.mkT [si, a0, a1, a2])
          [(si, 1), (a0, 1), (a1, 1), (a2, 1)] q.1)
          [(si, 2), (a0, 1), (a1, 1), (a2, 1)] q.2)
  | _ => none

/-- The constructor's site loop over the listed sites. -/
def buildSites (L : TensorLib T Sp Ar) (topo : CircuitTopology)
    (a s : List Index) (init : List (ℂ × ℂ)) : List ℕ → Option (List T)
  | [] => some []
  | i :: rest => do
    let t ← buildSiteTensor L topo a s init i
    let ts ← buildSites L topo a s init rest
    pure (t :: ts)

/-- `QCircuit::QCircuit(topology, init_qbits, physical_indices)`.  Creates
one dimension-1 link index per edge; adopts the supplied physical index list
when non-empty, otherwise creates fresh dimension-2 site indices; builds the
site tensors; sets the cursor to (0, 1) and contracts `Psi = M[0] * M[1]`.
There is no length check of either supplied list in the source; out-of-range
vector accesses are embedded as `none`. -/
def mkQCircuit (L : TensorLib T Sp Ar) (topo : CircuitTopology)
    (init_qbits : List (ℂ × ℂ)) (physical_indices : List Index) :
    Option (QCircuit T) := do
  let a := (List.range topo.numberOfLinks).map linkIndex
  let s := if physical_indices.isEmpty
           then (List.range topo.numberOfBits).map siteIndex
           else physical_indices
  let M ← buildSites L topo a s init_qbits (List.range topo.numberOfBits)
  let m0 ← M.get? 0
  let m1 ← M.get? 1
  pure { topology := topo, a := a, s := s, M := M,
         Psi := L.prod m0 m1, cursor := (0, 1) }

/-- Free function `overlap(circuit1, op, circuit2, args)`: flush both copies
with `decomposePsi`, prime the second, then contract site by site.  The
leading assert on the operator-list length is embedded as `none`. -/
def overlap (L : TensorLib T Sp Ar) (c1 : QCircuit T) (op : List T)
    (c2 : QCircuit T) (args : Ar) : Option ℂ :=
  if op.length = c1.size ∧ op.length = c2.size then
    match decomposePsi L c1 args, decomposePsi L c2 args with
    | some d1, some d2 =>
      let d2p := primeAll L d2
      let t0 := L.prod (L.prod (L.dag (d1.M.getD 0 L.emptyT)) (op.getD 0 L.emptyT))
                  (d2p.M.getD 0 L.emptyT)
      let t := (List.range (c1.size - 1)).foldl
        (fun acc k =>
          L.prod (L.prod (L.prod (L.dag (d1.M.getD (k + 1) L.emptyT))
            (op.getD (k + 1) L.emptyT)) acc) (d2p.M.getD (k + 1) L.emptyT)) t0
      some (L.cplx t)
    | _, _ => none
  else none

/-! Spec-side descriptions.  These definitions follow the wording of the
specification (sections 4.2 and 4.3) rather than the control flow of the
source; the refinement theorems below equate the translated code with them. -/

/-- Spec-side factor template: the site index together with the link indices
of all incident edges except the cursor-internal edge `e`, in the stable
`neighborsOf` order. -/
def specTemplate (L : TensorLib T Sp Ar) (si : Index) (nbrs : List Neighbor)
    (e : ℕ) (a : List Index) : T :=
  L.mkT (si :: (nbrs.filter (fun nb => !(nb.link == e))).map
    (fun nb => a.getD nb.link dIdx))

/-- Spec-side description of `decomposePsi` (spec section 4.2): SVD `Psi`
with the U template of `first`, rebind `a[e]` to the common index of U and
S, normalize S, store `M[first] = U` and `M[second] = S * V`, cursor and
`Psi` untouched. -/
def decomposePsiSpec (L : TensorLib T Sp Ar) (st : QCircuit T) (args : Ar)
    (e : ℕ) : QCircuit T :=
  let Utm := specTemplate L (st.s.getD st.cursor.1 dIdx)
    (st.topology.neighborsOf st.cursor.1) e st.a
  let r := L.svd st.Psi Utm L.emptyT L.emptyT args
  let Sn := L.divr r.2.1 (L.norm r.2.1)
  { st with
    a := st.a.set e (L.commonIndex r.1 r.2.1),
    M := (st.M.set st.cursor.1 r.1).set st.cursor.2 (L.prod Sn r.2.2.1) }

/-- The normalized singular-value factor stored by `decomposePsi` according
to the spec. -/
def decomposePsiSpecS (L : TensorLib T Sp Ar) (st : QCircuit T) (args : Ar)
    (e : ℕ) : T :=
  let Utm := specTemplate L (st.s.getD st.cursor.1 dIdx)
    (st.topology.neighborsOf st.cursor.1) e st.a
  let r := L.svd st.Psi Utm L.emptyT L.emptyT args
  L.divr r.2.1 (L.norm r.2.1)

/-- Spec-side description of case A of `shift_to` (`ind` a neighbor of
`cursor.first`, spec section 4.3): SVD `Psi` with the V template of
`second`, rebind `a[e]` to the common index of S and V, normalize S, store
`M[second] = V`, set the new `Psi = M[ind] * U * S` and the cursor to
`(ind, old first)`; the returned spectrum is the one reported by the SVD. -/
def shiftSpecA (L : TensorLib T Sp Ar) (st : QCircuit T) (ind : ℕ) (args : Ar)
    (e : ℕ) : QCircuit T × Sp :=
  let Vtm := specTemplate L (st.s.getD st.cursor.2 dIdx)
    (st.topology.neighborsOf st.cursor.2) e st.a
  let r := L.svd st.Psi L.emptyT L.emptyT Vtm args
  let Sn := L.divr r.2.1 (L.norm r.2.1)
  ({ st with
     a := st.a.set e (L.commonIndex r.2.1 r.2.2.1),
     M := st.M.set st.cursor.2 r.2.2.1,
     Psi := L.prod (L.prod (st.M.getD ind L.emptyT) r.1) Sn,
     cursor := (ind, st.cursor.1) }, r.2.2.2)

/-- Spec-side description of case B of `shift_to` (`ind` a neighbor of
`cursor.second`): the mirror image of case A, ending with `M[first] = U`,
`Psi = S * V * M[ind]` and cursor `(old second, ind)`. -/
def shiftSpecB (L : TensorLib T Sp Ar) (st : QCircuit T) (ind : ℕ) (args : Ar)
    (e : ℕ) : QCircuit T × Sp :=
  let Utm := specTemplate L (st.s.getD st.cursor.1 dIdx)
    (st.topology.neighborsOf st.cursor.1) e st.a
  let r := L.svd st.Psi Utm L.emptyT L.emptyT args
  let Sn := L.divr r.2.1 (L.norm r.2.1)
  ({ st with
     a := st.a.set e (L.commonIndex r.1 r.2.1),
     M := st.M.set st.cursor.1 r.1,
     Psi := L.prod (L.prod Sn r.2.2.1) (st.M.getD ind L.emptyT),
     cursor := (st.cursor.2, ind) }, r.2.2.2)

/-- Replace the spectrum reported by the library's `svd` with the constant
`σ`, leaving every tensor output unchanged.  Used to show which public
results do and do not depend on the reported spectrum. -/
def setSpecOutput (L : TensorLib T Sp Ar) (σ : Sp) : TensorLib T Sp Ar :=
  { L with svd := fun t u s v ar =>
      ((L.svd t u s v ar).1, (L.svd t u s v ar).2.1,
       (L.svd t u s v ar).2.2.1, σ) }

/-! Concrete instance: a free syntactic tensor algebra.  Tensor expressions
record which library operation produced them; equality is structural.  It
serves as the concrete library instance for witnesses and counterexamples. -/

/-- Free syntactic tensors: one constructor per library operation.  The
element value of `setT` and the real divisor of `divrT` are not recorded,
keeping equality decidable. -/
inductive FreeT : Type where
  | emptyT : FreeT
  | atom : ℕ → FreeT
  | mkT : List Index → FreeT
  | setT : FreeT → List (Index × ℕ) → FreeT
  | prodT : FreeT → FreeT → FreeT
  | svdU : FreeT → FreeT → FreeT → FreeT → ℕ → FreeT
  | svdS : FreeT → FreeT → FreeT → FreeT → ℕ → FreeT
  | svdV : FreeT → FreeT → FreeT → FreeT → ℕ → FreeT
  | divrT : FreeT → FreeT
  | prime2T : FreeT → Index → Index → FreeT
  | primeT : FreeT → FreeT
  | dagT : FreeT → FreeT
deriving DecidableEq, Repr

/-- The free tensor library with spectrum type ℕ and argument type ℕ: `svd`
reports the constant spectrum `σ`, the Frobenius norm is the constant 1 (so
division by the norm is total), and `inds` reads the index list off a
template. -/
def CLib (σ : ℕ) : TensorLib FreeT ℕ ℕ where
  emptyT := FreeT.emptyT
  mkT := FreeT.mkT
  set := fun t l _ => FreeT.setT t l
  prod := FreeT.prodT
  svd := fun t u s v ar =>
    (FreeT.svdU t u s v ar, FreeT.svdS t u s v ar, FreeT.svdV t u s v ar, σ)
  norm := fun _ => 1
  divr := fun t _ => FreeT.divrT t
  commonIndex := fun _ _ => ⟨100, 1, 2, 0⟩
  prime2 := FreeT.prime2T
  primeT := FreeT.primeT
  dag := FreeT.dagT
  inds := fun t => match t with | FreeT.mkT l => l | _ => []
  cplx := fun _ => 0

/-- Two-site chain topology: sites 0 - 1 joined by edge 0. -/
def T2 : CircuitTopology :=
  { numberOfLinks := 1, neighbors := [[⟨1, 0⟩], [⟨0, 0⟩]] }

/-- Four-site chain topology: 0 - 1 - 2 - 3 with edges 0, 1, 2. -/
def T4 : CircuitTopology :=
  { numberOfLinks := 3,
    neighbors := [[⟨1, 0⟩], [⟨0, 0⟩, ⟨2, 1⟩], [⟨1, 1⟩, ⟨3, 2⟩], [⟨2, 2⟩]] }

/-- A concrete circuit state on the four-site chain with the cursor on the
middle edge (1, 2); the tensors are free atoms. -/
def stW4 : QCircuit FreeT :=
  { topology := T4,
    a := [linkIndex 0, linkIndex 1, linkIndex 2],
    s := [siteIndex 0, siteIndex 1, siteIndex 2, siteIndex 3],
    M := [FreeT.atom 0, FreeT.atom 1, FreeT.atom 2, FreeT.atom 3],
    Psi := FreeT.atom 10,
    cursor := (1, 2) }

/-- A free rank-4 gate tensor over the cursor sites (1, 2) of `stW4`,
carrying both site indices and their primes. -/
def opW : FreeT :=
  FreeT.mkT [siteIndex 1, siteIndex 2, primeI (siteIndex 1), primeI (siteIndex 2)]

/-- Initial one-qubit amplitude lists of lengths 1, 2 and 3. -/
def init1 : List (ℂ × ℂ) := [(1, 0)]

/-- Length-2 amplitude list. -/
def init2 : List (ℂ × ℂ) := [(1, 0), (1, 0)]

/-- Length-3 amplitude list. -/
def init3 : List (ℂ × ℂ) := [(1, 0), (1, 0), (1, 0)]

/-! Gate library.  The single-site gate constructors build a rank-2 tensor
over a site index and its prime and fill individual elements; they are
embedded with explicit complex entries.  `entry v w` is the element at
site-index value `v` and primed-index value `w` (basis values 1 and 2). -/

/-- Rank-2 operator over `(s, prime s)` with explicit complex entries. -/
structure Rank2Op where
  s : Index
  entry : ℕ → ℕ → ℂ

/-- `ITensor ret(s, prime(s))`: the all-zero rank-2 operator. -/
def Rank2Op.zero (s : Index) : Rank2Op :=
  ⟨s, fun _ _ => 0⟩

/-- `ret.set(s(v), prime(s)(w), c)`. -/
def Rank2Op.setE (t : Rank2Op) (v w : ℕ) (c : ℂ) : Rank2Op :=
  ⟨t.s, fun i j => if i = v ∧ j = w then c else t.entry i j⟩

/-- Identity gate `Id(s)`. -/
def Id (s : Index) : Rank2Op :=
  ((Rank2Op.zero s).setE 1 1 1).setE 2 2 1

/-- Pauli `X(s)`. -/
def X (s : Index) : Rank2Op :=
  ((Rank2Op.zero s).setE 1 2 1).setE 2 1 1

/-- Pauli `Y(s)`: the source sets element `(s = 1, prime(s) = 2)` to `-i`
and element `(s = 2, prime(s) = 1)` to `+i`. -/
def Y (s : Index) : Rank2Op :=
  ((Rank2Op.zero s).setE 1 2 (-Complex.I)).setE 2 1 Complex.I

/-- Pauli `Z(s)`. -/
def Z (s : Index) : Rank2Op :=
  ((Rank2Op.zero s).setE 1 1 1).setE 2 2 (-1)

/-- Projector `proj_0(s)`. -/
def proj_0 (s : Index) : Rank2Op :=
  (Rank2Op.zero s).setE 1 1 1

/-- Projector `proj_1(s)`. -/
def proj_1 (s : Index) : Rank2Op :=
  (Rank2Op.zero s).setE 2 2 1

/-- Transition `proj_0_to_1(s)`. -/
def proj_0_to_1 (s : Index) : Rank2Op :=
  (Rank2Op.zero s).setE 2 1 1

/-- Transition `proj_1_to_0(s)`. -/
def proj_1_to_0 (s : Index) : Rank2Op :=
  (Rank2Op.zero s).setE 1 2 1

/-! Helper lemmas on lists, shared by the refinement proofs below. -/

/-- When exactly one element satisfies `p`, the first match is that
element. -/
lemma find?_of_filter_singleton {α : Type} (p : α → Bool) (l : List α)
    (x : α) (h : l.filter p = [x]) : l.find? p = some x := by
  induction l with
  | nil => simp at h
  | cons b t ih =>
    cases hb : p b with
    | true =>
      rw [List.filter_cons_of_pos hb] at h
      obtain ⟨rfl, _⟩ := List.cons.inj h
      exact List.find?_cons_of_pos _ hb
    | false =>
      rw [List.filter_cons_of_neg (by simp [hb])] at h
      rw [List.find?_cons_of_neg _ (by simp [hb])]
      exact ih h

/-- A fold that keeps the field of the last match leaves the accumulator
alone on a match-free list. -/
lemma foldl_pick_of_filter_nil {α β : Type} (p : α → Bool) (f : α → β)
    (l : List α) (h : l.filter p = []) (init : β) :
    l.foldl (fun acc nb => if p nb then f nb else acc) init = init := by
  induction l generalizing init with
  | nil => rfl
  | cons b t ih =>
    by_cases hb : p b
    · rw [List.filter_cons_of_pos hb] at h
      exact absurd h (List.cons_ne_nil _ _)
    · rw [List.filter_cons_of_neg hb] at h
      simp only [List.foldl_cons, if_neg hb]
      exact ih h init

/-- When exactly one element satisfies `p`, a last-match fold returns that
element's field regardless of its initial value. -/
lemma foldl_pick_of_filter_singleton {α β : Type} (p : α → Bool) (f : α → β)
    (l : List α) (x : α) (h : l.filter p = [x]) (init : β) :
    l.foldl (fun acc nb => if p nb then f nb else acc) init = f x := by
  induction l generalizing init with
  | nil => simp at h
  | cons b t ih =>
    by_cases hb : p b
    · rw [List.filter_cons_of_pos hb] at h
      obtain ⟨rfl, ht⟩ := List.cons.inj h
      simp only [List.foldl_cons, if_pos hb]
      exact foldl_pick_of_filter_nil p f t ht (f b)
    · rw [List.filter_cons_of_neg hb] at h
      simp only [List.foldl_cons, if_neg hb]
      exact ih h init

/-- Splitting a list by a predicate preserves the total length. -/
lemma length_filter_not_add {α : Type} (l : List α) (p : α → Bool) :
    (l.filter (fun x => !(p x))).length + (l.filter p).length = l.length := by
  induction l with
  | nil => rfl
  | cons b t ih =>
    cases hb : p b with
    | true =>
      rw [List.filter_cons_of_pos hb, List.filter_cons_of_neg (by simp [hb])]
      simp only [List.length_cons]
      omega
    | false =>
      rw [List.filter_cons_of_pos (by simp [hb]),
        List.filter_cons_of_neg (by simp [hb])]
      simp only [List.length_cons]
      omega

/-- In a neighbor list whose link ids are distinct and in which exactly one
entry points at site `v` (with link `e`), discarding the entry of site `v`
is the same as discarding the entry of link `e`. -/
lemma filter_not_site_eq_filter_not_link (l : List Neighbor) (v e : ℕ)
    (h1 : l.filter (fun nb => nb.site == v) = [⟨v, e⟩])
    (h2 : (l.map Neighbor.link).Nodup) :
    l.filter (fun nb => !(nb.site == v)) = l.filter (fun nb => !(nb.link == e)) := by
  have hxl : (⟨v, e⟩ : Neighbor) ∈ l := by
    have : (⟨v, e⟩ : Neighbor) ∈ l.filter (fun nb => nb.site == v) := by
      rw [h1]; exact List.mem_singleton_self _
    exact List.mem_of_mem_filter this
  refine List.filter_congr ?_
  intro nb hnb
  have hiff : (nb.site = v) ↔ (nb.link = e) := by
    constructor
    · intro hs
      have : nb ∈ l.filter (fun x => x.site == v) :=
        List.mem_filter.mpr ⟨hnb, by simp [hs]⟩
      rw [h1] at this
      rw [List.mem_singleton.mp this]
    · intro hl
      have := List.inj_on_of_nodup_map h2 hnb hxl (by simpa using hl)
      rw [this]
  by_cases hs : nb.site = v
  · simp [hs, hiff.mp hs]
  · have hl : ¬nb.link = e := fun hl => hs (hiff.mpr hl)
    simp [hs, hl]

/-- On a neighbor list of at most two entries the template switch succeeds
and builds the tensor over the site index and the mapped link indices. -/
lemma buildTemplate_eq (L : TensorLib T Sp Ar) (si : Index)
    (nl : List Neighbor) (a : List Index) (h : nl.length ≤ 2) :
    buildTemplate L si nl a =
      some (L.mkT (si :: nl.map (fun nb => a.getD nb.link dIdx))) := by
  match nl with
  | [] => rfl
  | [n0] => rfl
  | [n0, n1] => rfl
  | n0 :: n1 :: n2 :: rest => simp at h

/-- Updating one list position does not change reads at another. -/
lemma set_getD_ne {α : Type} (l : List α) (i j : ℕ) (v d : α) (h : i ≠ j) :
    (l.set i v).getD j d = l.getD j d := by
  induction l generalizing i j with
  | nil => simp
  | cons b t ih =>
    cases i with
    | zero =>
      cases j with
      | zero => exact absurd rfl h
      | succ j => simp
    | succ i =>
      cases j with
      | zero => simp
      | succ j =>
        simp only [List.set_cons_succ, List.getD_cons_succ]
        exact ih i j (fun hc => h (by rw [hc]))

/-- The constructor's site loop fails as soon as any listed site fails. -/
lemma buildSites_none (L : TensorLib T Sp Ar) (topo : CircuitTopology)
    (a s : List Index) (init : List (ℂ × ℂ)) (is : List ℕ) (j : ℕ)
    (hj : j ∈ is) (hnone : buildSiteTensor L topo a s init j = none) :
    buildSites L topo a s init is = none := by
  induction is with
  | nil => simp at hj
  | cons i rest ih =>
    rcases List.mem_cons.mp hj with rfl | hmem
    · simp [buildSites, hnone]
    · cases hi : buildSiteTensor L topo a s init i with
      | none => simp [buildSites, hi]
      | some t => simp [buildSites, hi, ih hmem]

/-- A site whose amplitude entry is missing makes the site-tensor builder
fail (out-of-range read of `init_qbits`). -/
lemma buildSiteTensor_init_oob (L : TensorLib T Sp Ar)
    (topo : CircuitTopology) (a s : List Index) (init : List (ℂ × ℂ))
    (j : ℕ) (hj : init.length ≤ j) :
    buildSiteTensor L topo a s init j = none := by
  have hq : init.get? j = none := List.get?_eq_none.mpr hj
  have hq2 : init[j]? = none := List.getElem?_eq_none hj
  unfold buildSiteTensor
  cases hs : s.get? j with
  | none => rfl
  | some si =>
    cases hnb : topo.neighborsOf j with
    | nil => rfl
    | cons n0 t0 =>
      cases t0 with
      | nil => simp [hq, hq2]
      | cons n1 t1 =>
        cases t1 with
        | nil => simp [hq, hq2]
        | cons n2 t2 =>
          cases t2 with
          | nil => simp [hq, hq2]
          | cons n3 t3 => rfl

/-- A site whose site-index entry is missing makes the site-tensor builder
fail (out-of-range read of the adopted physical index list). -/
lemma buildSiteTensor_site_oob (L : TensorLib T Sp Ar)
    (topo : CircuitTopology) (a s : List Index) (init : List (ℂ × ℂ))
    (j : ℕ) (hj : s.length ≤ j) :
    buildSiteTensor L topo a s init j = none := by
  have hs : s.get? j = none := List.get?_eq_none.mpr hj
  unfold buildSiteTensor
  rw [hs]
  rfl

/-- Replacing the spectrum reported by `svd` does not change the factor
templates, which only involve `mkT`. -/
lemma buildTemplate_setSpecOutput (L : TensorLib T Sp Ar) (σ : Sp)
    (si : Index) (nl : List Neighbor) (a : List Index) :
    buildTemplate (setSpecOutput L σ) si nl a = buildTemplate L si nl a := by
  match nl with
  | [] => rfl
  | [n0] => rfl
  | [n0, n1] => rfl
  | n0 :: n1 :: n2 :: rest => rfl

/-! Claim theorems. -/

/-- C5: calling `shift_to` with a site that equals a cursor endpoint, or
that is a topology neighbor of neither endpoint, halts the computation (the
leading asserts and the `assert(false)` of the direction search, embedded as
`none`) and never returns a spectrum. -/
theorem shift_to_invalid_halts (L : TensorLib T Sp Ar) (st : QCircuit T)
    (ind : ℕ) (args : Ar)
    (h : ind = st.cursor.1 ∨ ind = st.cursor.2 ∨
      ((st.topology.neighborsOf st.cursor.1).any (fun nb => nb.site == ind) = false ∧
       (st.topology.neighborsOf st.cursor.2).any (fun nb => nb.site == ind) = false)) :
    shift_to L st ind args = none := by
  rcases h with h | h | ⟨hf, hs⟩
  · simp [shift_to, h]
  · by_cases h1 : ind = st.cursor.1
    · simp [shift_to, h1]
    · simp [shift_to, h1, h]
  · by_cases h1 : ind = st.cursor.1
    · simp [shift_to, h1]
    · by_cases h2 : ind = st.cursor.2
      · simp [shift_to, h1, h2]
      · simp [shift_to, h1, h2, hf, hs]

/-- Witness for C5 on the four-site chain: the cursor sits on (1, 2) and
shifting to site 1 (a cursor endpoint) halts. -/
theorem shift_to_invalid_halts_witness : shift_to (CLib 0) stW4 1 0 = none :=
  shift_to_invalid_halts (CLib 0) stW4 1 0 (Or.inl rfl)

/-- C2: on a well-formed cursor edge (unique `(first, second)` entry with
link id `e`, distinct incident link ids, degree at most 3), `decomposePsi`
SVDs `Psi` with the U template holding `s[first]` plus all link indices
incident on `first` except the link to `second`, rebinds `a[e]` to the
common index of U and S, stores `M[first] = U` and `M[second] = S * V` with
S divided by its Frobenius norm, leaves the cursor unchanged, and the stored
singular-value factor has unit norm (given the library's Frobenius-norm
contract and a nonzero singular-value factor). -/
theorem decomposePsi_svd_spec (L : TensorLib T Sp Ar) (st : QCircuit T)
    (args : Ar) (e : ℕ)
    (hlaw : ∀ t, L.norm t ≠ 0 → L.norm (L.divr t (L.norm t)) = 1)
    (hadj : (st.topology.neighborsOf st.cursor.1).filter
        (fun nb => nb.site == st.cursor.2) = [⟨st.cursor.2, e⟩])
    (hnd : ((st.topology.neighborsOf st.cursor.1).map Neighbor.link).Nodup)
    (hdeg : (st.topology.neighborsOf st.cursor.1).length ≤ 3)
    (hS : L.norm (L.svd st.Psi (specTemplate L (st.s.getD st.cursor.1 dIdx)
        (st.topology.neighborsOf st.cursor.1) e st.a) L.emptyT L.emptyT
        args).2.1 ≠ 0) :
    decomposePsi L st args = some (decomposePsiSpec L st args e) ∧
      L.norm (decomposePsiSpecS L st args e) = 1 ∧
      (decomposePsiSpec L st args e).cursor = st.cursor := by
  have hfind : (st.topology.neighborsOf st.cursor.1).find?
      (fun nb => nb.site == st.cursor.2) = some ⟨st.cursor.2, e⟩ :=
    find?_of_filter_singleton _ _ _ hadj
  have hlen : ((st.topology.neighborsOf st.cursor.1).filter
      (fun nb => !(nb.site == st.cursor.2))).length ≤ 2 := by
    have h0 := length_filter_not_add (st.topology.neighborsOf st.cursor.1)
      (fun nb => nb.site == st.cursor.2)
    rw [hadj] at h0
    simp only [List.length_singleton] at h0
    omega
  have hfe := filter_not_site_eq_filter_not_link
    (st.topology.neighborsOf st.cursor.1) st.cursor.2 e hadj hnd
  have hbt : buildTemplate L (st.s.getD st.cursor.1 dIdx)
      ((st.topology.neighborsOf st.cursor.1).filter
        (fun nb => !(nb.site == st.cursor.2))) st.a =
      some (specTemplate L (st.s.getD st.cursor.1 dIdx)
        (st.topology.neighborsOf st.cursor.1) e st.a) := by
    unfold specTemplate
    rw [← hfe]
    exact buildTemplate_eq L _ _ _ hlen
  refine ⟨?_, hlaw _ hS, rfl⟩
  simp only [decomposePsi, hfind, hbt]
  rfl

/-- Witness for C2 on the four-site chain with the free tensor library:
after `decomposePsi` the cursor is still (1, 2). -/
theorem decomposePsi_svd_spec_witness :
    (decomposePsi (CLib 0) stW4 0).map (fun st => st.cursor) = some (1, 2) := by
  have h := decomposePsi_svd_spec (CLib 0) stW4 0 1
    (fun t ht => rfl) (by decide) (by decide) (by decide) (by norm_num [CLib])
  rw [h.1]
  simp only [Option.map_some']
  rw [h.2.2]
  rfl

/-- C1: under the shift precondition (`ind` differs from both cursor
endpoints and neighbors exactly one of them) on a well-formed cursor edge
with link id `e`: if `ind` neighbors `cursor.first` (case A), `shift_to`
SVDs `Psi` with the V template of `second` (its site index plus all its
link indices except the cursor edge), rebinds `a[e]` to the common index of
S and V, normalizes S, stores `M[second] = V`, sets `Psi = M[ind] * U * S`
and the cursor to `(ind, old first)`; if `ind` neighbors `cursor.second`
(case B), the mirror steps run, ending with `M[first] = U`,
`Psi = S * V * M[ind]` and cursor `(old second, ind)`. -/
theorem shift_to_cases_spec (L : TensorLib T Sp Ar) (st : QCircuit T)
    (ind : ℕ) (args : Ar) (e : ℕ)
    (h1 : ind ≠ st.cursor.1) (h2 : ind ≠ st.cursor.2) :
    (((st.topology.neighborsOf st.cursor.1).any (fun nb => nb.site == ind) = true) →
     ((st.topology.neighborsOf st.cursor.2).any (fun nb => nb.site == ind) = false) →
     (st.topology.neighborsOf st.cursor.2).filter
        (fun nb => nb.site == st.cursor.1) = [⟨st.cursor.1, e⟩] →
     ((st.topology.neighborsOf st.cursor.2).map Neighbor.link).Nodup →
     (st.topology.neighborsOf st.cursor.2).length ≤ 3 →
     shift_to L st ind args = some (shiftSpecA L st ind args e)) ∧
    (((st.topology.neighborsOf st.cursor.2).any (fun nb => nb.site == ind) = true) →
     ((st.topology.neighborsOf st.cursor.1).any (fun nb => nb.site == ind) = false) →
     (st.topology.neighborsOf st.cursor.1).filter
        (fun nb => nb.site == st.cursor.2) = [⟨st.cursor.2, e⟩] →
     ((st.topology.neighborsOf st.cursor.1).map Neighbor.link).Nodup →
     (st.topology.neighborsOf st.cursor.1).length ≤ 3 →
     shift_to L st ind args = some (shiftSpecB L st ind args e)) := by
  constructor
  · intro hA hA2 hadj hnd hdeg
    have hlast : lastLink (st.topology.neighborsOf st.cursor.2) st.cursor.1 = e :=
      foldl_pick_of_filter_singleton _ Neighbor.link _ _ hadj 0
    have hlen : ((st.topology.neighborsOf st.cursor.2).filter
        (fun nb => !(nb.site == st.cursor.1))).length ≤ 2 := by
      have h0 := length_filter_not_add (st.topology.neighborsOf st.cursor.2)
        (fun nb => nb.site == st.cursor.1)
      rw [hadj] at h0
      simp only [List.length_singleton] at h0
      omega
    have hfe := filter_not_site_eq_filter_not_link
      (st.topology.neighborsOf st.cursor.2) st.cursor.1 e hadj hnd
    have hbt : buildTemplate L (st.s.getD st.cursor.2 dIdx)
        ((st.topology.neighborsOf st.cursor.2).filter
          (fun nb => !(nb.site == st.cursor.1))) st.a =
        some (specTemplate L (st.s.getD st.cursor.2 dIdx)
          (st.topology.neighborsOf st.cursor.2) e st.a) := by
      unfold specTemplate
      rw [← hfe]
      exact buildTemplate_eq L _ _ _ hlen
    have hgetD : ∀ (v : T),
        ((st.M.set st.cursor.2 v).getD ind L.emptyT) = st.M.getD ind L.emptyT :=
      fun v => set_getD_ne st.M st.cursor.2 ind v L.emptyT (Ne.symm h2)
    simp only [shift_to, if_neg h1, if_neg h2, hA, hA2, lastLink] at *
    simp only [hlast, hbt]
    simp only [shiftSpecA, hgetD]
    rfl
  · intro hB hB2 hadj hnd hdeg
    have hlast : lastLink (st.topology.neighborsOf st.cursor.1) st.cursor.2 = e :=
      foldl_pick_of_filter_singleton _ Neighbor.link _ _ hadj 0
    have hlen : ((st.topology.neighborsOf st.cursor.1).filter
        (fun nb => !(nb.site == st.cursor.2))).length ≤ 2 := by
      have h0 := length_filter_not_add (st.topology.neighborsOf st.cursor.1)
        (fun nb => nb.site == st.cursor.2)
      rw [hadj] at h0
      simp only [List.length_singleton] at h0
      omega
    have hfe := filter_not_site_eq_filter_not_link
      (st.topology.neighborsOf st.cursor.1) st.cursor.2 e hadj hnd
    have hbt : buildTemplate L (st.s.getD st.cursor.1 dIdx)
        ((st.topology.neighborsOf st.cursor.1).filter
          (fun nb => !(nb.site == st.cursor.2))) st.a =
        some (specTemplate L (st.s.getD st.cursor.1 dIdx)
          (st.topology.neighborsOf st.cursor.1) e st.a) := by
      unfold specTemplate
      rw [← hfe]
      exact buildTemplate_eq L _ _ _ hlen
    have hgetD : ∀ (v : T),
        ((st.M.set st.cursor.1 v).getD ind L.emptyT) = st.M.getD ind L.emptyT :=
      fun v => set_getD_ne st.M st.cursor.1 ind v L.emptyT (Ne.symm h1)
    simp only [shift_to, if_neg h1, if_neg h2, hB, hB2, lastLink] at *
    simp only [hlast, hbt]
    simp only [shiftSpecB, hgetD]
    rfl

/-- Witness for C1 on the four-site chain, cursor (1, 2): shifting to site
0 (case A) moves the cursor to (0, 1); shifting to site 3 (case B) moves it
to (2, 3). -/
theorem shift_to_cases_spec_witness :
    (shift_to (CLib 7) stW4 0 0).map (fun p => p.1.cursor) = some (0, 1) ∧
    (shift_to (CLib 7) stW4 3 0).map (fun p => p.1.cursor) = some (2, 3) := by
  constructor
  · have h := (shift_to_cases_spec (CLib 7) stW4 0 0 1
      (by decide) (by decide)).1 (by decide) (by decide) (by decide)
      (by decide) (by decide)
    rw [h]
    rfl
  · have h := (shift_to_cases_spec (CLib 7) stW4 3 0 1
      (by decide) (by decide)).2 (by decide) (by decide) (by decide)
      (by decide) (by decide)
    rw [h]
    rfl

/-- C3 (amended): `decomposePsi` returns void, the spectrum of its internal
SVD is discarded; only `shift_to` returns the reported spectrum.  Replacing
the spectrum reported by the library changes nothing in the public result of
`decomposePsi`, while the result of `shift_to` carries exactly the reported
spectrum. -/
theorem decomposePsi_discards_spectrum (L : TensorLib T Sp Ar) (σ : Sp)
    (st : QCircuit T) (args : Ar) (ind : ℕ) :
    decomposePsi (setSpecOutput L σ) st args = decomposePsi L st args ∧
    shift_to (setSpecOutput L σ) st ind args =
      (shift_to L st ind args).map (fun p => (p.1, σ)) := by
  constructor
  · cases hf : (st.topology.neighborsOf st.cursor.1).find?
        (fun nb => nb.site == st.cursor.2) with
    | none => simp only [decomposePsi, hf]
    | some nbSec =>
      cases hbt : buildTemplate L (st.s.getD st.cursor.1 dIdx)
          ((st.topology.neighborsOf st.cursor.1).filter
            (fun nb => !(nb.site == st.cursor.2))) st.a with
      | none =>
        simp only [decomposePsi, hf, buildTemplate_setSpecOutput, hbt]
      | some Utm =>
        simp only [decomposePsi, hf, buildTemplate_setSpecOutput, hbt]
        rfl
  · by_cases hc1 : ind = st.cursor.1
    · simp [shift_to, hc1]
    · by_cases hc2 : ind = st.cursor.2
      · simp [shift_to, hc1, hc2]
      · cases hf2 : (st.topology.neighborsOf st.cursor.2).any
            (fun nb => nb.site == ind) with
        | true =>
          cases hbt : buildTemplate L (st.s.getD st.cursor.1 dIdx)
              ((st.topology.neighborsOf st.cursor.1).filter
                (fun nb => !(nb.site == st.cursor.2))) st.a with
          | none =>
            simp only [shift_to, if_neg hc1, if_neg hc2, hf2,
              buildTemplate_setSpecOutput, hbt]
            rfl
          | some Utm =>
            simp only [shift_to, if_neg hc1, if_neg hc2, hf2,
              buildTemplate_setSpecOutput, hbt]
            rfl
        | false =>
          cases hf1 : (st.topology.neighborsOf st.cursor.1).any
              (fun nb => nb.site == ind) with
          | true =>
            cases hbt : buildTemplate L (st.s.getD st.cursor.2 dIdx)
                ((st.topology.neighborsOf st.cursor.2).filter
                  (fun nb => !(nb.site == st.cursor.1))) st.a with
            | none =>
              simp only [shift_to, if_neg hc1, if_neg hc2, hf1, hf2,
                buildTemplate_setSpecOutput, hbt]
              rfl
            | some Vtm =>
              simp only [shift_to, if_neg hc1, if_neg hc2, hf1, hf2,
                buildTemplate_setSpecOutput, hbt]
              rfl
          | false =>
            simp only [shift_to, if_neg hc1, if_neg hc2, hf1, hf2]
            rfl

/-- Counterexample for C3 as stated: with two libraries that differ only in
the spectrum their `svd` reports (constant 0 versus constant 1), the public
result of `decomposePsi` is identical — the spectrum is not returned — while
the result of `shift_to` differs, because `shift_to` does return it. -/
theorem decomposePsi_spectrum_counterexample :
    decomposePsi (CLib 0) stW4 0 = decomposePsi (CLib 1) stW4 0 ∧
    shift_to (CLib 0) stW4 0 0 ≠ shift_to (CLib 1) stW4 0 0 := by
  constructor
  · decide
  · decide

/-- C4 (amended): `decomposePsi` leaves the `Psi` member untouched — it does
not re-contract `M[first] * M[second]`; after the call `Psi` is the stale
pre-SVD tensor. -/
theorem decomposePsi_leaves_Psi_stale (L : TensorLib T Sp Ar)
    (st : QCircuit T) (args : Ar) (st2 : QCircuit T)
    (h : decomposePsi L st args = some st2) : st2.Psi = st.Psi := by
  simp only [decomposePsi] at h
  cases hf : (st.topology.neighborsOf st.cursor.1).find?
      (fun nb => nb.site == st.cursor.2) with
  | none => rw [hf] at h; exact absurd h (by simp)
  | some nbSec =>
    rw [hf] at h
    cases hbt : buildTemplate L (st.s.getD st.cursor.1 dIdx)
        ((st.topology.neighborsOf st.cursor.1).filter
          (fun nb => !(nb.site == st.cursor.2))) st.a with
    | none => rw [hbt] at h; exact absurd h (by simp)
    | some Utm =>
      rw [hbt] at h
      cases Option.some.inj h
      rfl

/-- Witness for C4: on the four-site chain with the free library, the `Psi`
stored after `decomposePsi` is the old contracted tensor. -/
theorem decomposePsi_leaves_Psi_stale_witness :
    (decomposePsi (CLib 0) stW4 0).map (fun st => st.Psi) = some stW4.Psi := by
  cases h : decomposePsi (CLib 0) stW4 0 with
  | none => exact absurd h (by decide)
  | some st2 =>
    rw [Option.map_some']
    rw [decomposePsi_leaves_Psi_stale (CLib 0) stW4 0 st2 h]

/-- Counterexample for C4 as stated: concretely, after `decomposePsi` the
stored `Psi` is not the contraction of the freshly stored cursor factors
`M[first] * M[second]`. -/
theorem decomposePsi_recontract_counterexample :
    (decomposePsi (CLib 0) stW4 0).map
      (fun st => decide (st.Psi = FreeT.prodT (st.M.getD st.cursor.1 FreeT.emptyT)
        (st.M.getD st.cursor.2 FreeT.emptyT))) = some false := by
  decide

/-- C6 (amended): an initial amplitude list shorter than the number of sites
makes the constructor read `init_qbits` out of range, so no circuit state is
produced (there is no explicit length check in the source; the out-of-range
vector access is embedded as `none`). -/
theorem construct_short_amplitudes_fails (L : TensorLib T Sp Ar)
    (topo : CircuitTopology) (init : List (ℂ × ℂ)) (phys : List Index)
    (h : init.length < topo.numberOfBits) :
    mkQCircuit L topo init phys = none := by
  have hj : init.length ∈ List.range topo.numberOfBits := List.mem_range.mpr h
  have hnone := buildSiteTensor_init_oob L topo
    ((List.range topo.numberOfLinks).map linkIndex)
    (if phys.isEmpty then (List.range topo.numberOfBits).map siteIndex else phys)
    init init.length (le_refl _)
  have hb := buildSites_none L topo
    ((List.range topo.numberOfLinks).map linkIndex)
    (if phys.isEmpty then (List.range topo.numberOfBits).map siteIndex else phys)
    init (List.range topo.numberOfBits) init.length hj hnone
  simp only [mkQCircuit]
  rw [hb]
  rfl

/-- Witness for C6: on the two-site chain, one amplitude pair for two sites
fails. -/
theorem construct_short_amplitudes_fails_witness :
    mkQCircuit (CLib 0) T2 init1 [] = none :=
  construct_short_amplitudes_fails (CLib 0) T2 init1 [] (by decide)

/-- Counterexample for C6 as stated: an amplitude list of length 3 for a
two-site topology does not fail — construction silently succeeds, ignoring
the extra amplitude pair. -/
theorem construct_long_amplitudes_accepted :
    (mkQCircuit (CLib 0) T2 init3 []).isSome = true := by
  decide

/-- C10 (amended): a non-empty supplied physical index list is adopted
verbatim with no length check; when it is shorter than the number of sites
the site-tensor loop reads it out of range (embedded as `none`), so the safe
non-empty inputs are the lists of at least N indices. -/
theorem constructor_adopts_indices (L : TensorLib T Sp Ar)
    (topo : CircuitTopology) (init : List (ℂ × ℂ)) (phys : List Index)
    (hne : phys ≠ []) :
    (phys.length < topo.numberOfBits → mkQCircuit L topo init phys = none) ∧
    (∀ st2, mkQCircuit L topo init phys = some st2 → st2.s = phys) := by
  have hisE : phys.isEmpty = false := by
    cases phys with
    | nil => exact absurd rfl hne
    | cons x t => rfl
  constructor
  · intro hlen
    have hj : phys.length ∈ List.range topo.numberOfBits := List.mem_range.mpr hlen
    have hnone := buildSiteTensor_site_oob L topo
      ((List.range topo.numberOfLinks).map linkIndex) phys init
      phys.length (le_refl _)
    have hb := buildSites_none L topo
      ((List.range topo.numberOfLinks).map linkIndex) phys init
      (List.range topo.numberOfBits) phys.length hj hnone
    simp only [mkQCircuit, hisE]
    rw [if_neg (by simp [hisE])]
    rw [hb]
    rfl
  · intro st2 hmk
    simp only [mkQCircuit, hisE] at hmk
    rw [if_neg (by simp [hisE])] at hmk
    simp only [Option.bind_eq_bind, Option.bind_eq_some, Option.pure_def,
      Option.some.injEq] at hmk
    obtain ⟨M, hM, m0, hm0, m1, hm1, hrec⟩ := hmk
    rw [← hrec]

/-- Witness for C10: a single supplied index for the two-site chain is
adopted and read out of range, so construction fails. -/
theorem constructor_adopts_indices_witness :
    mkQCircuit (CLib 0) T2 init2 [dIdx] = none :=
  (constructor_adopts_indices (CLib 0) T2 init2 [dIdx] (by decide)).1 (by decide)

/-- Counterexample for the final clause of C10 as stated: a supplied list of
three indices for the two-site chain is neither empty nor of length N, yet
construction succeeds and adopts the whole list verbatim. -/
theorem constructor_long_index_list_safe :
    (mkQCircuit (CLib 0) T2 init2 [siteIndex 0, siteIndex 1, siteIndex 2]).map
      (fun st => st.s) = some [siteIndex 0, siteIndex 1, siteIndex 2] := by
  decide

/-- C7 (amended): the only nonzero entries of `Y(s)` are, in the spec's
row-primed/column-unprimed reading, `(2, 1) = -i` and `(1, 2) = +i` — the
transpose of the table as the claim states it; equivalently the claimed
values hold with rows unprimed and columns primed. -/
theorem Y_gate_entries (s : Index) :
    (Y s).entry 1 2 = -Complex.I ∧ (Y s).entry 2 1 = Complex.I ∧
    ∀ v w : ℕ, ¬(v = 1 ∧ w = 2) → ¬(v = 2 ∧ w = 1) → (Y s).entry v w = 0 := by
  refine ⟨by simp [Y, Rank2Op.setE, Rank2Op.zero],
    by simp [Y, Rank2Op.setE, Rank2Op.zero], ?_⟩
  intro v w h1 h2
  simp [Y, Rank2Op.setE, Rank2Op.zero, h1, h2]

/-- Witness for C7: the diagonal entry (1, 1) of `Y` vanishes. -/
theorem Y_gate_entries_witness : (Y dIdx).entry 1 1 = 0 :=
  (Y_gate_entries dIdx).2.2 1 1 (by decide) (by decide)

/-- Counterexample for C7 as stated: in the row-primed/column-unprimed
convention, the (2, 1) entry of `Y` — the element at site value 1 and primed
value 2 — is `-i`, not the claimed `+i`. -/
theorem Y_gate_claim_counterexample : (Y dIdx).entry 1 2 ≠ Complex.I := by
  have hv : (Y dIdx).entry 1 2 = -Complex.I := by
    simp [Y, Rank2Op.setE, Rank2Op.zero]
  rw [hv, Ne, CharZero.neg_eq_self_iff]
  exact Complex.I_ne_zero

/-- C8: under the rank-4 index precondition, `apply(op)` replaces `Psi` by
`op * prime(Psi, s[first], s[second])` and changes nothing else: no SVD runs
and the site tensors, link indices, site indices and cursor are all left
unchanged. -/
theorem apply_frame_spec (L : TensorLib T Sp Ar) (st : QCircuit T) (op : T)
    (hlen : (L.inds op).length = 4)
    (hmem : ∀ el ∈ L.inds op, el = st.s.getD st.cursor.1 dIdx ∨
      el = st.s.getD st.cursor.2 dIdx ∨
      el = primeI (st.s.getD st.cursor.1 dIdx) ∨
      el = primeI (st.s.getD st.cursor.2 dIdx)) :
    apply L st op =
      some { st with
             Psi := L.prod op (L.prime2 st.Psi (st.s.getD st.cursor.1 dIdx) (st.s.getD st.cursor.2 dIdx)) } ∧
    (∀ st2, apply L st op = some st2 → st2.M = st.M ∧ st2.a = st.a ∧
      st2.s = st.s ∧ st2.cursor = st.cursor) := by
  have hmain : apply L st op =
      some { st with
             Psi := L.prod op (L.prime2 st.Psi (st.s.getD st.cursor.1 dIdx) (st.s.getD st.cursor.2 dIdx)) } := by
    unfold apply
    rw [if_pos ⟨hlen, hmem⟩]
  refine ⟨hmain, fun st2 h => ?_⟩
  rw [hmain] at h
  cases Option.some.inj h
  exact ⟨rfl, rfl, rfl, rfl⟩

/-- Witness for C8 on the four-site chain: applying a free rank-4 gate over
the cursor sites leaves the site tensors and the cursor unchanged. -/
theorem apply_frame_spec_witness :
    (apply (CLib 0) stW4 opW).map (fun st => (st.M, st.cursor)) =
      some (stW4.M, stW4.cursor) := by
  have h := apply_frame_spec (CLib 0) stW4 opW (by decide) (by decide)
  rw [h.1]
  rfl

end qcircuit
